import Mathlib

/-!
Shallow embedding of `src/firmware.cpp` (KINGSTON-115/llm-pid-tuner).

The firmware keeps its whole state in global variables; here they are
gathered into one structure `FwState`.  Arduino `float` arithmetic is
modelled over `ℚ`; Arduino `String` values are modelled as `List Char`
with the `String` member functions (`trim`, `startsWith`, `substring`,
`indexOf`, `lastIndexOf`, `toFloat`) re-implemented over lists with the
Arduino semantics.  Serial output is modelled as an `Option Report`
returned next to the new state.
-/

namespace Firmware

/-- A line of serial input, as a list of characters. -/
abbrev Line := List Char

/-- `PWM_MAX` from the source: upper saturation bound of the PWM output. -/
def PWM_MAX : ℚ := 6000

/-- `PWM_CHANGE_MAX` from the source: maximal PWM change per control step. -/
def PWM_CHANGE_MAX : ℚ := 500

/-- `CONTROL_INTERVAL_MS / 1000.0f`: the control period in seconds. -/
def DT : ℚ := 50 / 1000

/-- The integral clamp bound (`constrain(integral, -100.0f, 100.0f)`),
`INTEGRAL_MAX` in the spec. -/
def INTEGRAL_MAX : ℚ := 100

/-- The global mutable variables of `firmware.cpp`, gathered in a record. -/
structure FwState where
  kp : ℚ
  ki : ℚ
  kd : ℚ
  setpoint : ℚ
  current_temp : ℚ
  pwm_output : ℚ
  prev_pwm_output : ℚ
  prev_error : ℚ
  integral : ℚ
deriving DecidableEq, Repr

/-- The state set up by `setup()` together with the global initializers. -/
def initState : FwState :=
  { kp := 1, ki := 1/10, kd := 5/100, setpoint := 100, current_temp := 20,
    pwm_output := 0, prev_pwm_output := 0, prev_error := 0, integral := 0 }

/-- Arduino `constrain(amt, low, high)`. -/
def constrain (amt low high : ℚ) : ℚ :=
  if amt < low then low else if amt > high then high else amt

/-- The local `error` of `computePID()`. -/
def pidError (s : FwState) : ℚ := s.setpoint - s.current_temp

/-- The value of `integral` after the accumulate-and-clamp lines of
`computePID()` (`integral += error * dt; integral = constrain(integral,
-100.0f, 100.0f)`). -/
def pidIntegral (s : FwState) : ℚ :=
  constrain (s.integral + pidError s * DT) (-100) 100

/-- The local `derivative` of `computePID()`. -/
def pidDerivative (s : FwState) : ℚ := (pidError s - s.prev_error) / DT

/-- The local `pid_output` of `computePID()` before slew limiting. -/
def pidRaw (s : FwState) : ℚ :=
  s.kp * pidError s + s.ki * pidIntegral s + s.kd * pidDerivative s

/-- The local `pid_output` of `computePID()` after the slew-rate limit
(`if (fabs(pwm_delta) > PWM_CHANGE_MAX) ...`). -/
def pidSlewed (s : FwState) : ℚ :=
  let pwm_delta := pidRaw s - s.prev_pwm_output
  if |pwm_delta| > PWM_CHANGE_MAX then
    s.prev_pwm_output + (if pwm_delta > 0 then PWM_CHANGE_MAX else -PWM_CHANGE_MAX)
  else pidRaw s

/-- `computePID()` from the source, acting on the gathered state. -/
def computePID (s : FwState) : FwState :=
  { s with integral := pidIntegral s,
           pwm_output := constrain (pidSlewed s) 0 PWM_MAX,
           prev_pwm_output := constrain (pidSlewed s) 0 PWM_MAX,
           prev_error := pidError s }

/-- `updateSimulation()` from the source: first-order thermal plant. -/
def updateSimulation (s : FwState) : FwState :=
  let heat_input := (s.pwm_output / 255) * 2
  let heat_loss := (s.current_temp - 20) * (2/100)
  { s with current_temp := s.current_temp + heat_input - heat_loss }

/-! ### Arduino String operations over `List Char` -/

/-- The characters removed by Arduino `String::trim` (C `isspace`). -/
def isSpaceChar (c : Char) : Bool :=
  c = ' ' || c = '\t' || c = '\n' || c = '\x0b' || c = '\x0c' || c = '\r'

/-- Arduino `String::trim`: drop leading and trailing whitespace. -/
def trimLine (l : Line) : Line :=
  ((l.dropWhile isSpaceChar).reverse.dropWhile isSpaceChar).reverse

/-- Helper for `indexOf`: first position (counted from `i`) at which
`pat` occurs as a prefix of the remaining list. -/
def findIdx (pat : Line) : Line → Nat → Option Nat
  | [], i => if pat.isPrefixOf ([] : Line) then some i else none
  | c :: rest, i =>
    if pat.isPrefixOf (c :: rest) then some i else findIdx pat rest (i + 1)

/-- Arduino `String::indexOf(pat)`: index of the first occurrence. -/
def indexOf (l pat : Line) : Option Nat := findIdx pat l 0

/-- Arduino `String::indexOf(pat, fromIndex)`: first occurrence at or
after `start`, as an absolute index. -/
def indexOfFrom (l pat : Line) (start : Nat) : Option Nat :=
  (findIdx pat (l.drop start) 0).map (· + start)

/-- Arduino `String::lastIndexOf(c)`: index of the last occurrence of a
character. -/
def lastIndexOfChar (l : Line) (c : Char) : Option Nat :=
  (findIdx [c] l.reverse 0).map (fun i => l.length - 1 - i)

/-- Arduino `String::substring(from, to)`: characters in `[from, to)`. -/
def substring (l : Line) (from0 upto : Nat) : Line :=
  (l.take upto).drop from0

/-- Arduino `String::substring(from)`: characters from `from` on. -/
def substringFrom (l : Line) (from0 : Nat) : Line := l.drop from0

/-- Numeric value of a digit string (most significant first). -/
def digsVal (ds : Line) : Nat := ds.foldl (fun a c => a * 10 + (c.toNat - 48)) 0

/-- Split a list into its leading digit span and the rest. -/
def digSpan (l : Line) : Line × Line :=
  (l.takeWhile Char.isDigit, l.dropWhile Char.isDigit)

/-- Powers of ten, with kernel-reducible `Nat` arithmetic. -/
def powTen : Nat → Nat
  | 0 => 1
  | n + 1 => 10 * powTen n

/-- Arduino `String::toFloat` (C `atof`): skip leading whitespace, then
an optional sign, integer digits, an optional fraction and an optional
exponent; an unparsable string yields `0`. -/
def toFloat (l : Line) : ℚ :=
  let l1 := l.dropWhile isSpaceChar
  let signRest : Bool × Line :=
    match l1 with
    | '-' :: r => (true, r)
    | '+' :: r => (false, r)
    | _ => (false, l1)
  let ipart := digSpan signRest.2
  let fpart : Line × Line :=
    match ipart.2 with
    | '.' :: r => digSpan r
    | _ => ([], ipart.2)
  let mant : ℚ := (digsVal ipart.1 : ℚ) + (digsVal fpart.1 : ℚ) / (powTen fpart.1.length : ℚ)
  let epart : Bool × Nat :=
    match fpart.2 with
    | 'e' :: r | 'E' :: r =>
      match r with
      | '-' :: r2 => (true, digsVal (digSpan r2).1)
      | '+' :: r2 => (false, digsVal (digSpan r2).1)
      | _ => (false, digsVal (digSpan r).1)
    | _ => (false, 0)
  let v := if epart.1 then mant / (powTen epart.2 : ℚ) else mant * (powTen epart.2 : ℚ)
  if signRest.1 then -v else v

/-! ### The command handler -/

/-- The keyword `"SET"`. -/
def strSET : Line := ['S', 'E', 'T']

/-- The keyword `"PID"`. -/
def strPID : Line := ['P', 'I', 'D']

/-- The keyword `"SETPOINT"`. -/
def strSETPOINT : Line := ['S', 'E', 'T', 'P', 'O', 'I', 'N', 'T']

/-- The keyword `"RESET"`. -/
def strRESET : Line := ['R', 'E', 'S', 'E', 'T']

/-- The keyword `"STATUS"`. -/
def strSTATUS : Line := ['S', 'T', 'A', 'T', 'U', 'S']

/-- The marker `"P:"`. -/
def markerP : Line := ['P', ':']

/-- The marker `"I:"`. -/
def markerI : Line := ['I', ':']

/-- The marker `"D:"`. -/
def markerD : Line := ['D', ':']

/-- The serial output a single `processSerialCommand` call may produce. -/
inductive Report where
  | pidUpdated (p i d : ℚ)
  | setpointUpdated (v : ℚ)
  | systemReset
  | statusLine (kp ki kd setpoint temp : ℚ)
deriving DecidableEq, Repr

/-- One `X:`-marker lookup of the gain-update branch: if the marker
occurs, parse the text between it and the next space (or end) as a
float; otherwise keep the old value. -/
def parseMarker (params marker : Line) (old : ℚ) : ℚ :=
  match indexOf params marker with
  | none => old
  | some idx =>
    let vend := (indexOfFrom params [' '] (idx + 2)).getD params.length
    toFloat (substring params (idx + 2) vend)

/-- The positional-form split of the gain-update branch:
`space1 = indexOf(" ")`, `space2 = lastIndexOf(" ")`, and the split is
used only when `space1 > 0 && space2 > space1`. -/
def positionalSplit (params : Line) : Option (Nat × Nat) :=
  match indexOf params [' '], lastIndexOfChar params ' ' with
  | some a, some b => if 0 < a ∧ a < b then some (a, b) else none
  | _, _ => none

/-- The `params` local of the `SET`/`PID` branch: strip the leading
`"SET"` (a `PID` line keeps the whole command) and trim again. -/
def gainParams (command : Line) : Line :=
  trimLine (if strSET.isPrefixOf command then substringFrom command 3 else command)

/-- The `(new_kp, new_ki, new_kd)` computed by the `SET`/`PID` branch:
marker lookups first, then the positional overwrite when the remainder
has no `:`. -/
def gainTriple (s : FwState) (params : Line) : ℚ × ℚ × ℚ :=
  let mkp := parseMarker params markerP s.kp
  let mki := parseMarker params markerI s.ki
  let mkd := parseMarker params markerD s.kd
  if (indexOf params [':']).isSome then (mkp, mki, mkd)
  else
    match positionalSplit params with
    | some (a, b) =>
      (toFloat (substring params 0 a), toFloat (substring params (a + 1) b),
       toFloat (substringFrom params (b + 1)))
    | none => (mkp, mki, mkd)

/-- `processSerialCommand()` from the source, acting on one already-read
input line: returns the new state and the report written to serial (if
any). -/
def processSerialCommand (s : FwState) (raw : Line) : FwState × Option Report :=
  let command := trimLine raw
  if command.length = 0 then (s, none)
  else if strSET.isPrefixOf command || strPID.isPrefixOf command then
    let gains := gainTriple s (gainParams command)
    ({ s with kp := gains.1, ki := gains.2.1, kd := gains.2.2, integral := 0 },
     some (.pidUpdated gains.1 gains.2.1 gains.2.2))
  else if strSETPOINT.isPrefixOf command then
    match indexOf command [':'] with
    | some colon_idx =>
      if 0 < colon_idx then
        let new_setpoint := toFloat (substringFrom command (colon_idx + 1))
        ({ s with setpoint := new_setpoint }, some (.setpointUpdated new_setpoint))
      else (s, none)
    | none => (s, none)
  else if command = strRESET then
    ({ s with kp := 1, ki := 1/10, kd := 5/100, integral := 0,
              current_temp := 20, pwm_output := 0 },
     some .systemReset)
  else if command = strSTATUS then
    (s, some (.statusLine s.kp s.ki s.kd s.setpoint s.current_temp))
  else (s, none)

/-- One scheduling opportunity of `loop()`: either a control tick
(`computePID` then `updateSimulation`) or the handling of one input
line. -/
inductive Op where
  | control
  | command (l : Line)

/-- Apply one `Op` to the state. -/
def applyOp (s : FwState) : Op → FwState
  | .control => updateSimulation (computePID s)
  | .command l => (processSerialCommand s l).1

/-- Run a sequence of scheduling opportunities from a starting state. -/
def runOps (s : FwState) (ops : List Op) : FwState := ops.foldl applyOp s

/-! ### Concrete input lines used in the claims -/

/-- The input line `"SETPOINT:75.5"`. -/
def lineSETPOINT755 : Line := ['S', 'E', 'T', 'P', 'O', 'I', 'N', 'T', ':', '7', '5', '.', '5']

/-- The input line `"SET P:2.0 I:0.5"`. -/
def lineSETgains : Line := ['S', 'E', 'T', ' ', 'P', ':', '2', '.', '0', ' ', 'I', ':', '0', '.', '5']

/-- The input line `"PID 1.5"` (a positional form with too few tokens). -/
def linePID15 : Line := ['P', 'I', 'D', ' ', '1', '.', '5']

/-- The input line `"RESET"`. -/
def lineRESETcmd : Line := ['R', 'E', 'S', 'E', 'T']

/-- The input line `"SET garbage"`. -/
def lineSETgarbage : Line := ['S', 'E', 'T', ' ', 'g', 'a', 'r', 'b', 'a', 'g', 'e']

/-! ### Lemmas about `constrain` and the slew limit -/

lemma constrain_lb {x lo hi : ℚ} (h : lo ≤ hi) : lo ≤ constrain x lo hi := by
  unfold constrain
  split_ifs with h1 h2
  · exact le_rfl
  · exact h
  · exact le_of_not_lt h1

lemma constrain_ub {x lo hi : ℚ} (h : lo ≤ hi) : constrain x lo hi ≤ hi := by
  unfold constrain
  split_ifs with h1 h2
  · exact h
  · exact le_rfl
  · exact le_of_not_lt h2

/-- The slew-limited raw output is within `PWM_CHANGE_MAX` of the
previous PWM output. -/
lemma pidSlewed_close (s : FwState) :
    |pidSlewed s - s.prev_pwm_output| ≤ PWM_CHANGE_MAX := by
  simp only [pidSlewed]
  split_ifs with h1 h2
  · have e : s.prev_pwm_output + PWM_CHANGE_MAX - s.prev_pwm_output = PWM_CHANGE_MAX := by
      ring
    rw [e, abs_of_nonneg (show (0:ℚ) ≤ PWM_CHANGE_MAX by norm_num [PWM_CHANGE_MAX])]
  · have e : s.prev_pwm_output + -PWM_CHANGE_MAX - s.prev_pwm_output = -PWM_CHANGE_MAX := by
      ring
    rw [e, abs_neg, abs_of_nonneg (show (0:ℚ) ≤ PWM_CHANGE_MAX by norm_num [PWM_CHANGE_MAX])]
  · exact le_of_not_lt h1

/-- Saturating after the slew clamp cannot re-widen the step: if the
previous output already lies in `[lo, hi]` and `x` is within `c` of it,
so is `constrain x lo hi`. -/
lemma abs_constrain_sub_le {x prev c lo hi : ℚ} (hlo : lo ≤ prev) (hhi : prev ≤ hi)
    (h : |x - prev| ≤ c) : |constrain x lo hi - prev| ≤ c := by
  rw [abs_le] at h ⊢
  unfold constrain
  split_ifs with h1 h2
  · constructor <;> linarith
  · constructor <;> linarith
  · exact h

/-! ### Lemmas about the branch structure of `processSerialCommand` -/

lemma isPrefixOf_cons_length_ne_zero {a : Char} {p l : Line}
    (h : (a :: p).isPrefixOf l = true) : l.length ≠ 0 := by
  cases l with
  | nil => simp [List.isPrefixOf] at h
  | cons b t => simp

/-- A line starting with `"SETPOINT"` also starts with `"SET"` — the
reason the `SETPOINT` branch of `processSerialCommand` is dead code. -/
lemma strSET_prefix_of_strSETPOINT {l : Line} (h : strSETPOINT.isPrefixOf l = true) :
    strSET.isPrefixOf l = true := by
  rw [List.isPrefixOf_iff_prefix] at h ⊢
  exact List.IsPrefix.trans ⟨['P', 'O', 'I', 'N', 'T'], rfl⟩ h

/-- No branch of `processSerialCommand` writes `setpoint` (the
`SETPOINT` branch is unreachable), `prev_error` or `prev_pwm_output`. -/
lemma processSerialCommand_preserves (s : FwState) (raw : Line) :
    (processSerialCommand s raw).1.setpoint = s.setpoint ∧
    (processSerialCommand s raw).1.prev_error = s.prev_error ∧
    (processSerialCommand s raw).1.prev_pwm_output = s.prev_pwm_output := by
  simp only [processSerialCommand]
  split_ifs with h1 h2 h3 h4 h5
  · exact ⟨rfl, rfl, rfl⟩
  · exact ⟨rfl, rfl, rfl⟩
  · exact absurd (by rw [Bool.or_eq_true]; exact Or.inl (strSET_prefix_of_strSETPOINT h3)) h2
  · exact ⟨rfl, rfl, rfl⟩
  · exact ⟨rfl, rfl, rfl⟩
  · exact ⟨rfl, rfl, rfl⟩

/-- Every branch of `processSerialCommand` either zeroes the integral or
leaves it alone. -/
lemma processSerialCommand_integral (s : FwState) (raw : Line) :
    (processSerialCommand s raw).1.integral = 0 ∨
    (processSerialCommand s raw).1.integral = s.integral := by
  simp only [processSerialCommand]
  split_ifs with h1 h2 h3 h4 h5
  · exact Or.inr rfl
  · exact Or.inl rfl
  · exact absurd (by rw [Bool.or_eq_true]; exact Or.inl (strSET_prefix_of_strSETPOINT h3)) h2
  · exact Or.inl rfl
  · exact Or.inr rfl
  · exact Or.inr rfl

/-- On a line whose trimmed form starts with `"SET"` or `"PID"`,
`processSerialCommand` takes the gain-update branch. -/
lemma processSerialCommand_gainBranch (s : FwState) (raw : Line)
    (h : strSET.isPrefixOf (trimLine raw) = true ∨ strPID.isPrefixOf (trimLine raw) = true) :
    processSerialCommand s raw =
      ({ s with kp := (gainTriple s (gainParams (trimLine raw))).1,
                ki := (gainTriple s (gainParams (trimLine raw))).2.1,
                kd := (gainTriple s (gainParams (trimLine raw))).2.2,
                integral := 0 },
       some (.pidUpdated (gainTriple s (gainParams (trimLine raw))).1
              (gainTriple s (gainParams (trimLine raw))).2.1
              (gainTriple s (gainParams (trimLine raw))).2.2)) := by
  have hne : ¬((trimLine raw).length = 0) := by
    rcases h with h | h
    · exact isPrefixOf_cons_length_ne_zero h
    · exact isPrefixOf_cons_length_ne_zero h
  have hb : (strSET.isPrefixOf (trimLine raw) || strPID.isPrefixOf (trimLine raw)) = true := by
    rcases h with h | h <;> simp [h]
  simp only [processSerialCommand]
  rw [if_neg hne, if_pos hb]

/-! ### No-colon lines have no gain markers -/

lemma mem_of_isPrefixOf_single {c : Char} {l : Line} (h : [c].isPrefixOf l = true) :
    c ∈ l := by
  cases l with
  | nil => simp [List.isPrefixOf] at h
  | cons b u =>
    simp only [List.isPrefixOf, Bool.and_eq_true, beq_iff_eq] at h
    exact h.1 ▸ List.mem_cons_self b u

lemma not_mem_of_findIdx_single_none {c : Char} :
    ∀ (l : Line) (i : Nat), findIdx [c] l i = none → c ∉ l := by
  intro l
  induction l with
  | nil => intro i _; simp
  | cons a t ih =>
    intro i h
    simp only [findIdx] at h
    split_ifs at h with hp
    intro hmem
    rcases List.mem_cons.mp hmem with rfl | hmem2
    · exact hp (by simp [List.isPrefixOf])
    · exact absurd hmem2 (ih (i + 1) h)

lemma findIdx_pair_none {p c : Char} :
    ∀ (l : Line) (i : Nat), c ∉ l → findIdx [p, c] l i = none := by
  intro l
  induction l with
  | nil => intro i _; rfl
  | cons a t ih =>
    intro i h
    simp only [findIdx]
    rw [if_neg]
    · exact ih (i + 1) (fun hm => h (List.mem_cons_of_mem a hm))
    · intro htrue
      simp only [List.isPrefixOf, Bool.and_eq_true] at htrue
      exact h (List.mem_cons_of_mem a (mem_of_isPrefixOf_single htrue.2))

/-- If the params contain no `:` at all, every `X:`-marker lookup keeps
the old gain. -/
lemma parseMarker_of_no_colon {params : Line} (hc : indexOf params [':'] = none)
    (p : Char) (old : ℚ) : parseMarker params [p, ':'] old = old := by
  unfold parseMarker
  rw [show indexOf params [p, ':'] = none from
    findIdx_pair_none params 0 (not_mem_of_findIdx_single_none params 0 hc)]

/-! ### The step and command invariants over operation sequences -/

lemma runOps_cons (s : FwState) (op : Op) (ops : List Op) :
    runOps s (op :: ops) = runOps (applyOp s op) ops := rfl

lemma applyOp_prev_bounds (s : FwState) (op : Op)
    (h0 : 0 ≤ s.prev_pwm_output) (h1 : s.prev_pwm_output ≤ PWM_MAX) :
    0 ≤ (applyOp s op).prev_pwm_output ∧ (applyOp s op).prev_pwm_output ≤ PWM_MAX := by
  cases op with
  | control =>
    exact ⟨constrain_lb (by norm_num [PWM_MAX]), constrain_ub (by norm_num [PWM_MAX])⟩
  | command l =>
    have h := (processSerialCommand_preserves s l).2.2
    constructor
    · show 0 ≤ (processSerialCommand s l).1.prev_pwm_output
      rw [h]; exact h0
    · show (processSerialCommand s l).1.prev_pwm_output ≤ PWM_MAX
      rw [h]; exact h1

lemma applyOp_integral_bound (s : FwState) (op : Op)
    (h : |s.integral| ≤ (100 : ℚ)) : |(applyOp s op).integral| ≤ (100 : ℚ) := by
  cases op with
  | control =>
    show |pidIntegral s| ≤ (100 : ℚ)
    rw [abs_le]
    exact ⟨constrain_lb (by norm_num), constrain_ub (by norm_num)⟩
  | command l =>
    show |(processSerialCommand s l).1.integral| ≤ (100 : ℚ)
    rcases processSerialCommand_integral s l with he | he <;> rw [he]
    · norm_num
    · exact h

/-- No operation of the loop ever writes the setpoint (the `SETPOINT`
branch being unreachable). -/
lemma runOps_setpoint (s : FwState) (ops : List Op) :
    (runOps s ops).setpoint = s.setpoint := by
  induction ops generalizing s with
  | nil => rfl
  | cons op rest ih =>
    rw [runOps_cons, ih (applyOp s op)]
    cases op with
    | control => rfl
    | command l => exact (processSerialCommand_preserves s l).1

/-! ### Claim theorems -/

/-- C4: for a PID step taken from any state whose stored previous output
lies in `[0, PWM_MAX]` (as it does after every step), the PWM output of
the step differs from the previous output by at most `PWM_CHANGE_MAX`,
even though the `[0, PWM_MAX]` saturation is applied after the slew
clamp; moreover the step stores its output as the new previous output. -/
theorem slew_rate_invariant (s : FwState)
    (h0 : 0 ≤ s.prev_pwm_output) (h1 : s.prev_pwm_output ≤ PWM_MAX) :
    |(computePID s).pwm_output - s.prev_pwm_output| ≤ PWM_CHANGE_MAX ∧
    (computePID s).prev_pwm_output = (computePID s).pwm_output := by
  refine ⟨?_, rfl⟩
  exact abs_constrain_sub_le h0 h1 (pidSlewed_close s)

/-- Witness for C4 at the initial state. -/
theorem slew_rate_invariant_witness :
    0 ≤ initState.prev_pwm_output ∧ initState.prev_pwm_output ≤ PWM_MAX ∧
    (|(computePID initState).pwm_output - initState.prev_pwm_output| ≤ PWM_CHANGE_MAX ∧
     (computePID initState).prev_pwm_output = (computePID initState).pwm_output) :=
  ⟨by with_unfolding_all decide, by with_unfolding_all decide,
   slew_rate_invariant initState (by with_unfolding_all decide) (by with_unfolding_all decide)⟩

/-- C5: starting from any state whose stored previous output lies in
`[0, PWM_MAX]` (in particular from the initial state), after any
sequence of control steps and command applications the stored previous
output still lies in `[0, PWM_MAX]`: every PID step saturates it there
and no other operation touches it. -/
theorem prev_output_in_range (s : FwState) (ops : List Op)
    (h0 : 0 ≤ s.prev_pwm_output) (h1 : s.prev_pwm_output ≤ PWM_MAX) :
    0 ≤ (runOps s ops).prev_pwm_output ∧ (runOps s ops).prev_pwm_output ≤ PWM_MAX := by
  induction ops generalizing s with
  | nil => exact ⟨h0, h1⟩
  | cons op rest ih =>
    rw [runOps_cons]
    have hb := applyOp_prev_bounds s op h0 h1
    exact ih (applyOp s op) hb.1 hb.2

/-- Witness for C5: one control step from the initial state. -/
theorem prev_output_in_range_witness :
    0 ≤ initState.prev_pwm_output ∧ initState.prev_pwm_output ≤ PWM_MAX ∧
    (0 ≤ (runOps initState [Op.control]).prev_pwm_output ∧
     (runOps initState [Op.control]).prev_pwm_output ≤ PWM_MAX) :=
  ⟨by with_unfolding_all decide, by with_unfolding_all decide,
   prev_output_in_range initState [Op.control]
     (by with_unfolding_all decide) (by with_unfolding_all decide)⟩

/-- C6: starting from any state whose integral has magnitude at most
`INTEGRAL_MAX = 100` (in particular from the initial state), the
magnitude of the integral stays at most `INTEGRAL_MAX` after every
sequence of control steps, gain updates and resets: the step clamps it
to `[-100, 100]` and every command either zeroes it or leaves it. -/
theorem integral_bounded (s : FwState) (ops : List Op)
    (h : |s.integral| ≤ INTEGRAL_MAX) : |(runOps s ops).integral| ≤ INTEGRAL_MAX := by
  induction ops generalizing s with
  | nil => exact h
  | cons op rest ih =>
    rw [runOps_cons]
    exact ih (applyOp s op) (applyOp_integral_bound s op h)

/-- Witness for C6: one control step and one gain update from a state
with a saturated integral. -/
theorem integral_bounded_witness :
    |({ initState with integral := 100 } : FwState).integral| ≤ INTEGRAL_MAX ∧
    |(runOps { initState with integral := 100 }
        [Op.control, Op.command linePID15]).integral| ≤ INTEGRAL_MAX :=
  ⟨by with_unfolding_all decide,
   integral_bounded { initState with integral := 100 }
     [Op.control, Op.command linePID15] (by with_unfolding_all decide)⟩

/-- C7: handling any `SET`/`PID` line (every such line is an accepted
gain update) zeroes the integral and leaves `prev_error`,
`prev_pwm_output`, the setpoint, the measurement and the PWM output at
their prior values: the branch writes only `kp`, `ki`, `kd` and
`integral`. -/
theorem gain_update_frame (s : FwState) (raw : Line)
    (h : strSET.isPrefixOf (trimLine raw) = true ∨ strPID.isPrefixOf (trimLine raw) = true) :
    (processSerialCommand s raw).1.integral = 0 ∧
    (processSerialCommand s raw).1.prev_error = s.prev_error ∧
    (processSerialCommand s raw).1.prev_pwm_output = s.prev_pwm_output ∧
    (processSerialCommand s raw).1.setpoint = s.setpoint ∧
    (processSerialCommand s raw).1.current_temp = s.current_temp ∧
    (processSerialCommand s raw).1.pwm_output = s.pwm_output := by
  rw [processSerialCommand_gainBranch s raw h]
  exact ⟨rfl, rfl, rfl, rfl, rfl, rfl⟩

/-- Witness for C7: the gain line `"SET P:2.0 I:0.5"` applied to a state
with a stale integral. -/
theorem gain_update_frame_witness :
    (strSET.isPrefixOf (trimLine lineSETgains) = true ∨
     strPID.isPrefixOf (trimLine lineSETgains) = true) ∧
    (let s0 : FwState := { initState with integral := 42, prev_error := 3, prev_pwm_output := 7 }
     (processSerialCommand s0 lineSETgains).1.integral = 0 ∧
     (processSerialCommand s0 lineSETgains).1.prev_error = s0.prev_error ∧
     (processSerialCommand s0 lineSETgains).1.prev_pwm_output = s0.prev_pwm_output ∧
     (processSerialCommand s0 lineSETgains).1.setpoint = s0.setpoint ∧
     (processSerialCommand s0 lineSETgains).1.current_temp = s0.current_temp ∧
     (processSerialCommand s0 lineSETgains).1.pwm_output = s0.pwm_output) :=
  ⟨Or.inl (by decide),
   gain_update_frame { initState with integral := 42, prev_error := 3, prev_pwm_output := 7 }
     lineSETgains (Or.inl (by decide))⟩

/-- A state with a stale integral, used as a concrete input. -/
def statePID50 : FwState := { initState with integral := 50 }

/-- C1 (code bug): on the failing input `"SETPOINT:75.5"` the handler
takes the gain-update branch (the line starts with `"SET"`), so the
setpoint keeps its value `100` instead of becoming `75.5`, the integral
is zeroed, and a `# PID Updated` report — not a setpoint report — is
emitted. -/
theorem setpoint_line_swallowed_by_gain_branch :
    (processSerialCommand initState lineSETPOINT755).1.setpoint = 100 ∧
    (processSerialCommand initState lineSETPOINT755).1.setpoint ≠ 151/2 ∧
    (processSerialCommand statePID50 lineSETPOINT755).1.setpoint = 100 ∧
    (processSerialCommand statePID50 lineSETPOINT755).1.integral = 0 ∧
    (processSerialCommand initState lineSETPOINT755).2 =
      some (.pidUpdated 1 (1/10) (5/100)) := by
  with_unfolding_all decide

/-- C2 counterexample: the malformed positional line `"PID 1.5"` is not
silently ignored — it changes the state (the integral is zeroed) and a
report is emitted. -/
theorem malformed_pid_line_not_silent :
    (processSerialCommand statePID50 linePID15).1 ≠ statePID50 ∧
    (processSerialCommand statePID50 linePID15).2 ≠ none := by
  with_unfolding_all decide

/-- C2 amended: a `PID` (or `SET`) line whose remainder has no `:` and
does not split into the three-token positional structure is still
treated as an accepted gain update: the gains stay at their prior
values, but the integral is zeroed and a `# PID Updated` report is
emitted (instead of yielding Invalid with no state change). -/
theorem malformed_positional_updates_anyway (s : FwState) (raw : Line)
    (h : strSET.isPrefixOf (trimLine raw) = true ∨ strPID.isPrefixOf (trimLine raw) = true)
    (hc : indexOf (gainParams (trimLine raw)) [':'] = none)
    (hp : positionalSplit (gainParams (trimLine raw)) = none) :
    processSerialCommand s raw =
      ({ s with integral := 0 }, some (.pidUpdated s.kp s.ki s.kd)) := by
  have h1 := parseMarker_of_no_colon hc 'P' s.kp
  have h2 := parseMarker_of_no_colon hc 'I' s.ki
  have h3 := parseMarker_of_no_colon hc 'D' s.kd
  have hg : gainTriple s (gainParams (trimLine raw)) = (s.kp, s.ki, s.kd) := by
    simp [gainTriple, markerP, markerI, markerD, h1, h2, h3, hc, hp]
  rw [processSerialCommand_gainBranch s raw h, hg]

/-- Witness for the amended C2 at the line `"PID 1.5"`. -/
theorem malformed_positional_updates_anyway_witness :
    ((strSET.isPrefixOf (trimLine linePID15) = true ∨
      strPID.isPrefixOf (trimLine linePID15) = true) ∧
     indexOf (gainParams (trimLine linePID15)) [':'] = none ∧
     positionalSplit (gainParams (trimLine linePID15)) = none) ∧
    processSerialCommand statePID50 linePID15 =
      ({ statePID50 with integral := 0 },
       some (.pidUpdated statePID50.kp statePID50.ki statePID50.kd)) :=
  ⟨⟨Or.inr (by decide), by decide, by decide⟩,
   malformed_positional_updates_anyway statePID50 linePID15
     (Or.inr (by decide)) (by decide) (by decide)⟩

/-- A fully exercised state, used as the concrete input for C3. -/
def stateRST : FwState :=
  { kp := 3, ki := 4, kd := 5, setpoint := 80, current_temp := 55,
    pwm_output := 1234, prev_pwm_output := 9, prev_error := 7, integral := 33 }

/-- C3 counterexample: `RESET` leaves `prev_error` and
`prev_pwm_output` at their prior nonzero values instead of zeroing
them. -/
theorem reset_keeps_prev_error_and_prev_output :
    (processSerialCommand stateRST lineRESETcmd).1.prev_error = 7 ∧
    (processSerialCommand stateRST lineRESETcmd).1.prev_error ≠ 0 ∧
    (processSerialCommand stateRST lineRESETcmd).1.prev_pwm_output = 9 ∧
    (processSerialCommand stateRST lineRESETcmd).1.prev_pwm_output ≠ 0 := by
  with_unfolding_all decide

/-- C3 amended: `RESET` restores `kp`, `ki`, `kd` to their defaults
(1, 0.1, 0.05), zeroes the integral, and resets the measurement to 20
and the control signal to 0, but leaves `prev_error`,
`prev_pwm_output` and the setpoint unchanged. -/
theorem reset_effect (s : FwState) :
    processSerialCommand s lineRESETcmd =
      ({ s with kp := 1, ki := 1/10, kd := 5/100, integral := 0,
                current_temp := 20, pwm_output := 0 },
       some .systemReset) := by
  with_unfolding_all rfl

/-- C8: applying the colon-form line `"SET P:2.0 I:0.5"` from any prior
gains sets `kp = 2.0` and `ki = 0.5` and leaves the absent `kd` at its
current value. -/
theorem set_colon_partial_update (s : FwState) :
    (processSerialCommand s lineSETgains).1.kp = 2 ∧
    (processSerialCommand s lineSETgains).1.ki = 1/2 ∧
    (processSerialCommand s lineSETgains).1.kd = s.kd := by
  refine ⟨?_, ?_, ?_⟩ <;> with_unfolding_all rfl

/-- C9: applying `RESET` twice in a row yields exactly the same state
and report as applying it once, for every starting state. -/
theorem reset_idempotent (s : FwState) :
    processSerialCommand (processSerialCommand s lineRESETcmd).1 lineRESETcmd =
      processSerialCommand s lineRESETcmd := by
  with_unfolding_all rfl

/-- C10: every line beginning (after trimming) with `"SET"` or `"PID"`
is handled as an accepted gain update — integral zeroed and a
`# PID Updated` report carrying the resulting gains; no input line
ever changes the setpoint (the `SETPOINT` branch is unreachable), so
the setpoint keeps its initial value 100 after any operation sequence;
on `"SETPOINT:75.5"` and `"SET garbage"` no gain field parses, so the
gains keep their prior values while the update report is still
emitted. -/
theorem gain_branch_catches_all (s : FwState) (raw : Line)
    (h : strSET.isPrefixOf (trimLine raw) = true ∨ strPID.isPrefixOf (trimLine raw) = true) :
    (processSerialCommand s raw).1.integral = 0 ∧
    (processSerialCommand s raw).2 =
      some (Report.pidUpdated (processSerialCommand s raw).1.kp
        (processSerialCommand s raw).1.ki (processSerialCommand s raw).1.kd) ∧
    (∀ s2 raw2, (processSerialCommand s2 raw2).1.setpoint = s2.setpoint) ∧
    (∀ ops, (runOps initState ops).setpoint = 100) ∧
    (∀ s3, (processSerialCommand s3 lineSETPOINT755).1.kp = s3.kp ∧
           (processSerialCommand s3 lineSETPOINT755).1.ki = s3.ki ∧
           (processSerialCommand s3 lineSETPOINT755).1.kd = s3.kd ∧
           (processSerialCommand s3 lineSETPOINT755).2 =
             some (Report.pidUpdated s3.kp s3.ki s3.kd)) ∧
    (∀ s4, (processSerialCommand s4 lineSETgarbage).1.kp = s4.kp ∧
           (processSerialCommand s4 lineSETgarbage).1.ki = s4.ki ∧
           (processSerialCommand s4 lineSETgarbage).1.kd = s4.kd ∧
           (processSerialCommand s4 lineSETgarbage).2 =
             some (Report.pidUpdated s4.kp s4.ki s4.kd)) := by
  refine ⟨?_, ?_, ?_, ?_, ?_, ?_⟩
  · rw [processSerialCommand_gainBranch s raw h]
  · rw [processSerialCommand_gainBranch s raw h]
  · exact fun s2 raw2 => (processSerialCommand_preserves s2 raw2).1
  · exact fun ops => runOps_setpoint initState ops
  · exact fun s3 => ⟨rfl, rfl, rfl, rfl⟩
  · exact fun s4 => ⟨rfl, rfl, rfl, rfl⟩

/-- Witness for C10 at the line `"SETPOINT:75.5"`. -/
theorem gain_branch_catches_all_witness :
    (processSerialCommand initState lineSETPOINT755).1.integral = 0 ∧
    (∀ ops, (runOps initState ops).setpoint = 100) := by
  have h := gain_branch_catches_all initState lineSETPOINT755 (Or.inl (by decide))
  exact ⟨h.1, h.2.2.2.1⟩

end Firmware
